import Mathlib

/-!
Shallow embedding of `example_ncbi.py` (gene-symbol → gene-ID questionnaire
script) and proofs about its rate limiter, XML response parser, URL builder,
error handling and report formatting.

Time is modelled by explicit passing of an ideal wall clock (ℚ): `time.sleep x`
advances the clock by exactly `x`, `time.time()` reads it, and the intrinsic
running time of a wrapped function is an explicit parameter.
-/

namespace NcbiExample

/-! ## Rate limiter (`limit_calls`, `limit_calls_basic`) -/

/-- The mutable instance state of a `limit_calls` (or `limit_calls_basic`)
decorator object: `previous_time` (initially `None`), the configured
`delta_time`, and the fixed `small_delta_time`. -/
structure LimitState where
  previous_time : Option ℚ
  delta_time : ℚ
  small_delta_time : ℚ
deriving Repr, DecidableEq

/-- Python `limit_calls.__init__`: `previous_time = None`, caller-supplied
`delta_time` (the Python default is `0.35`), `small_delta_time = 0.01`. -/
def limit_calls_init (delta_time : ℚ) : LimitState :=
  { previous_time := none, delta_time := delta_time, small_delta_time := 1/100 }

/-- The Python default argument `delta_time=0.35` of `limit_calls.__init__`
(also the value hard-coded in `limit_calls_basic.__init__` and the value the
script passes at the decoration site `@limit_calls(delta_time=0.35)`). -/
def default_delta_time : ℚ := 35/100

/-- How long the wrapper sleeps when invoked at wall-clock time `now`:
`max(0.0, delta_time + small_delta_time - (time.time() - previous_time))`
when `previous_time is not None`, else no sleep.  (Sleeping only when
`time_to_sleep > 0.0`, as the Python code does, has the same effect on the
clock as always sleeping `max 0 _`.) -/
def sleepTime (s : LimitState) (now : ℚ) : ℚ :=
  match s.previous_time with
  | none => 0
  | some p => max 0 (s.delta_time + s.small_delta_time - (now - p))

/-- Outcome of one invocation of the wrapper returned by
`limit_calls.__call__`: the value or propagated exception, the decorator
state after the invocation, the wall-clock time at which the wrapped
function was entered, and the wall-clock time at which the wrapper
returned (or the exception escaped). -/
structure CallResult (ε α : Type) where
  value : Except ε α
  state : LimitState
  fcall_time : ℚ
  endTime : ℚ
deriving Repr

/-- One invocation of `wrap(*args)` (the closure built by
`limit_calls.__call__`) issued at wall-clock time `now`.  The wrapped
function's behaviour at this invocation is given by its intrinsic running
time `work` and its outcome `res` (`Except.error` models it raising).
Mirrors the Python body: optional sleep, then `val = func(*args)`, then
`self.previous_time = time.time()` — so on an exception `previous_time`
is never reassigned.  `limit_calls_basic.__call__` has the same body. -/
def callWrap {ε α : Type} (s : LimitState) (now work : ℚ) (res : Except ε α) :
    CallResult ε α :=
  let fcall := now + sleepTime s now
  let fin := fcall + work
  match res with
  | Except.ok a =>
      { value := Except.ok a
        state := { s with previous_time := some fin }
        fcall_time := fcall
        endTime := fin }
  | Except.error e =>
      { value := Except.error e
        state := s
        fcall_time := fcall
        endTime := fin }

/-- Outcome of a sequence of successful invocations through one limiter
instance: the wall-clock times at which the wrapped function was entered,
the final decorator state, and the wall-clock time the last call returned. -/
structure RunResult where
  fcalls : List ℚ
  state : LimitState
  endTime : ℚ
deriving Repr

/-- A single-threaded caller issuing successive invocations through the same
limiter instance.  Each list entry `(d, w)` is one invocation: the caller
issues it `d` time units after the previous invocation returned (`d = 0` is
back-to-back) and the wrapped function runs for `w` (`w = 0` is negligible
intrinsic work).  All invocations succeed. -/
def runCalls (s : LimitState) (now : ℚ) : List (ℚ × ℚ) → RunResult
  | [] => { fcalls := [], state := s, endTime := now }
  | (d, w) :: rest =>
      let r := callWrap s (now + d) w (Except.ok () : Except Unit Unit)
      let r2 := runCalls r.state r.endTime rest
      { fcalls := r.fcall_time :: r2.fcalls, state := r2.state, endTime := r2.endTime }

/-! ## XML response parser (`get_gene_ids_from_xml`) -/

/-- An XML element as exposed by `lxml.etree`: a tag, the text content
(`.text`, which is `None` for an element with no text), and the list of
child elements in document order. -/
inductive XmlElem : Type where
  | mk (tag : String) (text : Option String) (children : List XmlElem)
deriving Repr

/-- The element's tag (`node.tag`). -/
def XmlElem.tag : XmlElem → String
  | .mk t _ _ => t

/-- The element's text content (`node.text`). -/
def XmlElem.text : XmlElem → Option String
  | .mk _ x _ => x

/-- The element's children in document order (iteration / indexing / `len`). -/
def XmlElem.children : XmlElem → List XmlElem
  | .mk _ _ c => c

/-- The six ASCII whitespace characters stripped by Python `int(str)`.
(Python also strips some further Unicode whitespace; the documents this
script consumes are ASCII.) -/
def pyIsSpace (c : Char) : Bool :=
  c = ' ' || c = '\t' || c = '\n' || c = '\r' || c = Char.ofNat 11 || c = Char.ofNat 12

/-- Value of a run of decimal digits in which single underscores may appear
between digits (Python `int` literal-style grouping), accumulating left to
right; `none` when a non-digit appears or an underscore is not followed by
a digit. -/
def digitsVal : List Char → Nat → Option Nat
  | [], acc => some acc
  | '_' :: c :: rest, acc =>
      if c.isDigit then digitsVal rest (acc * 10 + (c.toNat - 48)) else none
  | c :: rest, acc =>
      if c.isDigit then digitsVal rest (acc * 10 + (c.toNat - 48)) else none

/-- A nonempty digit run (no leading underscore), as required after the
optional sign in Python `int(str)`. -/
def pyStrToNat : List Char → Option Nat
  | [] => none
  | c :: rest => if c.isDigit then digitsVal rest (c.toNat - 48) else none

/-- Python `int(s)` on a string: strip surrounding whitespace, optional
`+`/`-` sign, then a nonempty underscore-grouped digit run; `none` models
the `ValueError` that the caller's bare `except` swallows. -/
def pyInt (s : String) : Option Int :=
  let cs := ((s.data.dropWhile pyIsSpace).reverse.dropWhile pyIsSpace).reverse
  match cs with
  | '+' :: rest => (pyStrToNat rest).map (fun n => (n : Int))
  | '-' :: rest => (pyStrToNat rest).map (fun n => -(n : Int))
  | _ => (pyStrToNat cs).map (fun n => (n : Int))

/-- Python `int(sub_node.text)` under the bare `try/except`: when `.text` is `None`,
`int(None)` raises `TypeError`, also swallowed — so `none` either way. -/
def pyIntOfText : Option String → Option Int
  | none => none
  | some s => pyInt s

/-- The `for node in root: if node.tag != "IdList": continue` loop: the first
direct child tagged `IdList`, if any (every later iteration returns, so at
most the first match is ever examined). -/
def findIdList : List XmlElem → Option XmlElem
  | [] => none
  | n :: rest => if n.tag = "IdList" then some n else findIdList rest

/-- The body of `get_gene_ids_from_xml` run on the found `IdList` node:
`if len(node) == 0 or node[0].tag != "Id": return []`, then collect
`int(sub_node.text)` over all children skipping failures, and return the
collection if nonempty else `[]`. -/
def idListGeneIds (node : XmlElem) : List Int :=
  match node.children with
  | [] => []
  | first :: _ =>
      if first.tag ≠ "Id" then []
      else
        let gene_ids := node.children.filterMap (fun sub => pyIntOfText sub.text)
        if gene_ids.length > 0 then gene_ids else []

/-- Function `get_gene_ids_from_xml`, on the already-parsed document tree (the
`lxml.etree.fromstring` text-to-tree step is external C code; the claims
concern the traversal of the resulting tree). -/
def get_gene_ids_from_xml (root : XmlElem) : List Int :=
  match findIdList root.children with
  | none => []
  | some node => idListGeneIds node

/-! ## Remote lookup (`get_gene_ids_from_gene_symbol`) -/

/-- The Python exception classes this program can raise from
`get_gene_ids_from_gene_symbol`, with their message. -/
inductive PyExc : Type where
  | valueError (msg : String)
  | lookupError (msg : String)
deriving Repr, DecidableEq

/-- The parts of a `requests.Response` the script reads: `response.ok` and the
body, already parsed to a tree (see `get_gene_ids_from_xml`). -/
structure HttpResponse where
  ok : Bool
  body : XmlElem

/-- The f-string URL of `get_gene_ids_from_gene_symbol`:
`f"https://eutils.ncbi.nlm.nih.gov/entrez/eutils/esearch.fcgi?db=gene&term={gene_symbol}[symbol]+AND+{organism}[organism]"`. -/
def esearch_url (organism gene_symbol : String) : String :=
  "https://eutils.ncbi.nlm.nih.gov/entrez/eutils/esearch.fcgi?db=gene&term="
    ++ gene_symbol ++ "[symbol]+AND+" ++ organism ++ "[organism]"

/-- Function `get_gene_ids_from_gene_symbol`, with the network modelled as a function
`get` from the request URL to the response: build the URL, GET it, raise
`ValueError(f"Invalid ({organism}) or gene symbol ({gene_symbol})")` when
`not response.ok`, else parse the body. -/
def get_gene_ids_from_gene_symbol (organism gene_symbol : String)
    (get : String → HttpResponse) : Except PyExc (List Int) :=
  let response := get (esearch_url organism gene_symbol)
  if !response.ok then
    Except.error (PyExc.valueError
      ("Invalid (" ++ organism ++ ") or gene symbol (" ++ gene_symbol ++ ")"))
  else
    Except.ok (get_gene_ids_from_xml response.body)

/-- Whether a lookup outcome is a raised `LookupError`. -/
def raisesLookupError : Except PyExc (List Int) → Bool
  | Except.error (PyExc.lookupError _) => true
  | _ => false

/-! ## Report printer formatting (`print_gene_info`, lines 187–192) -/

/-- The identifier-list-to-string formatting inside `print_gene_info`:
`""` when `len(gene_ids) is 0`, `str(gene_ids[0])` when `len(gene_ids) == 1`,
else `", ".join(map(str, gene_ids))`.  (CPython's small-integer caching makes
`len(gene_ids) is 0` behave as equality with `0`.) -/
def gene_ids_to_str (gene_ids : List Int) : String :=
  if gene_ids.length = 0 then ""
  else if gene_ids.length = 1 then toString gene_ids.headI
  else String.intercalate ", " (gene_ids.map toString)

/-! ## Spec-side definitions and concrete example documents -/

/-- Stated from the spec's words, for comparison with `esearch_url`: the
search term is the gene symbol filtered by field `symbol` and the organism
filtered by field `organism`, joined with a logical AND. -/
def spec_search_term (organism gene_symbol : String) : String :=
  gene_symbol ++ "[symbol]+AND+" ++ organism ++ "[organism]"

/-- The fixed external search endpoint named by the spec. -/
def spec_esearch_endpoint : String :=
  "https://eutils.ncbi.nlm.nih.gov/entrez/eutils/esearch.fcgi"

/-- Example document whose `IdList` has children
`<Id>12</Id><Id>abc</Id><Id>34</Id>`. -/
def exampleMixedDoc : XmlElem :=
  .mk "eSearchResult" none
    [.mk "Count" (some "3") [],
     .mk "IdList" (some "\n")
       [.mk "Id" (some "12") [], .mk "Id" (some "abc") [], .mk "Id" (some "34") []]]

/-- The `IdList` node of `exampleMixedDoc`. -/
def exampleMixedIdList : XmlElem :=
  .mk "IdList" (some "\n")
    [.mk "Id" (some "12") [], .mk "Id" (some "abc") [], .mk "Id" (some "34") []]

/-- Example document whose `IdList` node's only child is not tagged `Id`. -/
def exampleNonIdDoc : XmlElem :=
  .mk "eSearchResult" none
    [.mk "Count" (some "1") [],
     .mk "IdList" none [.mk "Foo" (some "5") []]]

/-- The `IdList` node of `exampleNonIdDoc`. -/
def exampleNonIdIdList : XmlElem :=
  .mk "IdList" none [.mk "Foo" (some "5") []]

/-- Example document whose root has no direct child tagged `IdList`. -/
def exampleNoIdListDoc : XmlElem :=
  .mk "eSearchResult" none
    [.mk "Count" (some "0") [], .mk "RetMax" (some "0") []]

/-- Document whose `IdList` has a first child tagged `Id` with text `1` and a
second child with text `2` whose tag is the parameter. -/
def idFirstDoc (second_tag : String) : XmlElem :=
  .mk "eSearchResult" none
    [.mk "IdList" none
      [.mk "Id" (some "1") [], .mk second_tag (some "2") []]]

/-- Document whose `IdList` children are `<Foo>2</Foo><Id>1</Id>` — the same
two children as `idFirstDoc "Foo"` in the opposite order. -/
def fooFirstDoc : XmlElem :=
  .mk "eSearchResult" none
    [.mk "IdList" none
      [.mk "Foo" (some "2") [], .mk "Id" (some "1") []]]

/-- A response whose status is non-success; the body is irrelevant. -/
def failedResponse : HttpResponse :=
  { ok := false, body := .mk "eSearchResult" none [] }

/-! ## Theorems: response parser -/

/-- Scanning a child list in which no element is tagged `IdList` finds
nothing. -/
lemma findIdList_eq_none (l : List XmlElem) (h : ∀ n ∈ l, n.tag ≠ "IdList") :
    findIdList l = none := by
  induction l with
  | nil => rfl
  | cons n rest ih =>
      have hn := h n (List.mem_cons_self n rest)
      simp only [findIdList, if_neg hn]
      exact ih fun m hm => h m (List.mem_cons_of_mem n hm)

/-- When the scan finds an `IdList` node, the parse result is the body run on
that node. -/
lemma get_gene_ids_from_xml_found (root node : XmlElem)
    (h : findIdList root.children = some node) :
    get_gene_ids_from_xml root = idListGeneIds node := by
  unfold get_gene_ids_from_xml
  rw [h]

/-- The `IdList` body on a node with no children. -/
lemma idListGeneIds_of_nil (node : XmlElem) (h : node.children = []) :
    idListGeneIds node = [] := by
  cases node with
  | mk t x c =>
      simp only [XmlElem.children] at h
      subst h
      rfl

/-- The `IdList` body on a node with first child `first`: the first-child tag
guard followed by the nonempty check on the collected integers. -/
lemma idListGeneIds_of_cons (node first : XmlElem) (rest : List XmlElem)
    (h : node.children = first :: rest) :
    idListGeneIds node =
      if first.tag ≠ "Id" then []
      else if ((first :: rest).filterMap (fun sub => pyIntOfText sub.text)).length > 0
        then (first :: rest).filterMap (fun sub => pyIntOfText sub.text)
        else [] := by
  cases node with
  | mk t x c =>
      simp only [XmlElem.children] at h
      subst h
      rfl

/-- C3: for every document whose first `IdList` child's own first child is
tagged `Id`, `get_gene_ids_from_xml` parses each child of the `IdList` as an
integer, silently skipping children whose text fails to parse and preserving
document order — i.e. the result is exactly the in-order `filterMap` of
Python-`int` over the children's text. -/
theorem c3_parser_skips_unparsable (root node first : XmlElem) (rest : List XmlElem)
    (hfind : findIdList root.children = some node)
    (hch : node.children = first :: rest) (htag : first.tag = "Id") :
    get_gene_ids_from_xml root =
      node.children.filterMap (fun sub => pyIntOfText sub.text) := by
  rw [get_gene_ids_from_xml_found root node hfind,
    idListGeneIds_of_cons node first rest hch, hch]
  simp only [htag, ne_eq, not_true_eq_false, if_false]
  cases hL : (first :: rest).filterMap (fun sub => pyIntOfText sub.text) with
  | nil => simp [hL]
  | cons a t => simp [hL]

/-- Witness for C3 at the spec's example `<Id>12</Id><Id>abc</Id><Id>34</Id>`:
the non-integer text is skipped and order is preserved, yielding `[12, 34]`. -/
theorem c3_witness :
    findIdList exampleMixedDoc.children = some exampleMixedIdList ∧
    get_gene_ids_from_xml exampleMixedDoc = [12, 34] :=
  ⟨rfl,
    (c3_parser_skips_unparsable exampleMixedDoc exampleMixedIdList
      (.mk "Id" (some "12") [])
      [.mk "Id" (some "abc") [], .mk "Id" (some "34") []] rfl rfl rfl).trans rfl⟩

/-- C5: for every document whose first `IdList` child either has no children
or has a first child not tagged `Id`, `get_gene_ids_from_xml` returns `[]`. -/
theorem c5_empty_or_non_id_first_child (root node : XmlElem)
    (hfind : findIdList root.children = some node)
    (h : node.children = [] ∨
      ∃ first rest, node.children = first :: rest ∧ first.tag ≠ "Id") :
    get_gene_ids_from_xml root = [] := by
  rw [get_gene_ids_from_xml_found root node hfind]
  rcases h with h | ⟨first, rest, hch, htag⟩
  · exact idListGeneIds_of_nil node h
  · rw [idListGeneIds_of_cons node first rest hch]
    simp only [htag, ne_eq, not_false_eq_true, if_true]

/-- Witness for C5 at a document whose `IdList` has one child tagged `Foo`. -/
theorem c5_witness :
    findIdList exampleNonIdDoc.children = some exampleNonIdIdList ∧
    get_gene_ids_from_xml exampleNonIdDoc = [] :=
  ⟨rfl,
    c5_empty_or_non_id_first_child exampleNonIdDoc exampleNonIdIdList rfl
      (Or.inr ⟨.mk "Foo" (some "5") [], [], rfl, by decide⟩)⟩

/-- C6: for every document whose root has no direct child tagged `IdList`,
`get_gene_ids_from_xml` returns `[]`. -/
theorem c6_no_idlist_child (root : XmlElem)
    (h : ∀ n ∈ root.children, n.tag ≠ "IdList") :
    get_gene_ids_from_xml root = [] := by
  unfold get_gene_ids_from_xml
  rw [findIdList_eq_none root.children h]

/-- Witness for C6 at a document whose root children are `Count`, `RetMax`. -/
theorem c6_witness :
    (∀ n ∈ exampleNoIdListDoc.children, n.tag ≠ "IdList") ∧
    get_gene_ids_from_xml exampleNoIdListDoc = [] :=
  ⟨by decide, c6_no_idlist_child exampleNoIdListDoc (by decide)⟩

/-- C9: the parser checks only the tag of the first `IdList` child.  For
every document whose `IdList` has a first child tagged `Id`, the result is
the in-order parse of every child's text — a statement in which the tags of
the subsequent children do not occur, so each subsequent child is attempted
and included on success regardless of its tag.  Concretely, a second child
with text `2` is included whatever its tag
(`<IdList><Id>1</Id><Foo>2</Foo></IdList>` parses to `[1, 2]`), while the
same two children in the opposite order (non-`Id` first) yield `[]`. -/
theorem c9_only_first_child_tag_checked :
    (∀ (root node first : XmlElem) (rest : List XmlElem),
      findIdList root.children = some node →
      node.children = first :: rest →
      first.tag = "Id" →
      get_gene_ids_from_xml root =
        node.children.filterMap (fun sub => pyIntOfText sub.text)) ∧
    (∀ second_tag : String,
      get_gene_ids_from_xml (idFirstDoc second_tag) = [1, 2]) ∧
    get_gene_ids_from_xml fooFirstDoc = [] := by
  refine ⟨fun root node first rest hfind hch htag => ?_, fun _ => rfl, rfl⟩
  rw [get_gene_ids_from_xml_found root node hfind,
    idListGeneIds_of_cons node first rest hch, hch]
  simp only [htag, ne_eq, not_true_eq_false, if_false]
  cases hL : (first :: rest).filterMap (fun sub => pyIntOfText sub.text) with
  | nil => simp [hL]
  | cons a t => simp [hL]

/-- Witness for C9: the universal part applied to the concrete document
`<IdList><Id>1</Id><Foo>2</Foo></IdList>` (first child tagged `Id`, second
child tagged `Foo`), which parses to `[1, 2]`. -/
theorem c9_witness :
    findIdList (idFirstDoc "Foo").children =
      some (XmlElem.mk "IdList" none
        [XmlElem.mk "Id" (some "1") [], XmlElem.mk "Foo" (some "2") []]) ∧
    get_gene_ids_from_xml (idFirstDoc "Foo") = [1, 2] :=
  ⟨rfl,
    (c9_only_first_child_tag_checked.1 (idFirstDoc "Foo")
      (XmlElem.mk "IdList" none
        [XmlElem.mk "Id" (some "1") [], XmlElem.mk "Foo" (some "2") []])
      (XmlElem.mk "Id" (some "1") [])
      [XmlElem.mk "Foo" (some "2") []] rfl rfl rfl).trans rfl⟩

/-! ## Theorems: report printer formatting -/

/-- C7: for every identifier list, the identifier-list-to-string formatting
produces `""` for the empty list, the bare number for exactly one element
(`"672"` for `[672]`), and the comma-space-joined numbers for two or more
elements (`"12, 34"` for `[12, 34]`). -/
theorem c7_gene_ids_formatting :
    gene_ids_to_str [] = "" ∧
    (∀ x : Int, gene_ids_to_str [x] = toString x) ∧
    gene_ids_to_str [672] = "672" ∧
    gene_ids_to_str [12, 34] = "12, 34" ∧
    ∀ ids : List Int, 2 ≤ ids.length →
      gene_ids_to_str ids = String.intercalate ", " (ids.map toString) := by
  refine ⟨rfl, fun x => ?_, rfl, rfl, fun ids h => ?_⟩
  · simp [gene_ids_to_str]
  · have h0 : ¬ ids.length = 0 := by omega
    have h1 : ¬ ids.length = 1 := by omega
    simp only [gene_ids_to_str, h0, h1, if_false]

/-- Witness for C7: the universal singleton case at `[7]` and the joined case
at the three-element list `[5, 6, 7]`. -/
theorem c7_witness :
    gene_ids_to_str [7] = "7" ∧
    (2 ≤ ([5, 6, 7] : List Int).length ∧ gene_ids_to_str [5, 6, 7] = "5, 6, 7") :=
  ⟨(c7_gene_ids_formatting.2.1 7).trans rfl,
    by norm_num,
    (c7_gene_ids_formatting.2.2.2.2 [5, 6, 7] (by norm_num)).trans rfl⟩

/-! ## Theorems: remote lookup URL -/

/-- C8: the request URL is the fixed search endpoint with database parameter
`gene` and term `<gene_symbol>[symbol]+AND+<organism>[organism]` — the gene
symbol filtered by field `symbol` and the organism filtered by field
`organism` joined with a logical AND, exactly as the spec words it. -/
theorem c8_url_construction (organism gene_symbol : String) :
    esearch_url organism gene_symbol =
      spec_esearch_endpoint ++ "?db=gene&term=" ++
        spec_search_term organism gene_symbol := by
  show esearch_url organism gene_symbol =
    "https://eutils.ncbi.nlm.nih.gov/entrez/eutils/esearch.fcgi?db=gene&term="
      ++ spec_search_term organism gene_symbol
  simp only [esearch_url, spec_search_term, String.append_assoc]

/-- Witness for C8 at `organism = "Homo sapiens"`, `gene_symbol = "BRCA1"`. -/
theorem c8_witness :
    esearch_url "Homo sapiens" "BRCA1" =
      "https://eutils.ncbi.nlm.nih.gov/entrez/eutils/esearch.fcgi?db=gene&term=BRCA1[symbol]+AND+Homo sapiens[organism]" :=
  (c8_url_construction "Homo sapiens" "BRCA1").trans rfl

/-! ## Theorems: remote lookup error handling -/

/-- C2 counterexample: at `("Homo sapiens", "BRCA1")` with a non-success
response, the raised exception is `ValueError`, not `LookupError` — the claim
that a `LookupError` is raised is false on the code. -/
theorem c2_counterexample :
    raisesLookupError
      (get_gene_ids_from_gene_symbol "Homo sapiens" "BRCA1"
        (fun _ => failedResponse)) = false ∧
    get_gene_ids_from_gene_symbol "Homo sapiens" "BRCA1" (fun _ => failedResponse) =
      Except.error (PyExc.valueError "Invalid (Homo sapiens) or gene symbol (BRCA1)") :=
  ⟨rfl, rfl⟩

/-- C2 amended: for every `(organism, gene_symbol)` input whose response has a
non-success status, `get_gene_ids_from_gene_symbol` raises a `ValueError`
(not a `LookupError`), and the raised error's message carries the offending
organism and gene symbol as substrings. -/
theorem c2_value_error_on_failure (organism gene_symbol : String)
    (get : String → HttpResponse)
    (h : (get (esearch_url organism gene_symbol)).ok = false) :
    get_gene_ids_from_gene_symbol organism gene_symbol get =
      Except.error (PyExc.valueError
        ("Invalid (" ++ organism ++ ") or gene symbol (" ++ gene_symbol ++ ")")) ∧
    organism.data <:+:
      ("Invalid (" ++ organism ++ ") or gene symbol (" ++ gene_symbol ++ ")").data ∧
    gene_symbol.data <:+:
      ("Invalid (" ++ organism ++ ") or gene symbol (" ++ gene_symbol ++ ")").data := by
  refine ⟨?_, ?_, ?_⟩
  · unfold get_gene_ids_from_gene_symbol
    simp only []
    rw [h]
    rfl
  · refine ⟨"Invalid (".data,
      (") or gene symbol (" ++ gene_symbol ++ ")").data, ?_⟩
    simp [String.data_append]
  · refine ⟨("Invalid (" ++ organism ++ ") or gene symbol (").data, ")".data, ?_⟩
    simp [String.data_append]

/-- Witness for C2's amended theorem at `("Mus musculus", "BRCA2")` with an
always-failing network. -/
theorem c2_witness :
    get_gene_ids_from_gene_symbol "Mus musculus" "BRCA2" (fun _ => failedResponse) =
      Except.error (PyExc.valueError "Invalid (Mus musculus) or gene symbol (BRCA2)") :=
  (c2_value_error_on_failure "Mus musculus" "BRCA2" (fun _ => failedResponse) rfl).1

/-! ## Theorems: rate limiter -/

/-- A fresh limiter never sleeps (`previous_time is None`). -/
lemma sleepTime_init (delta t : ℚ) : sleepTime (limit_calls_init delta) t = 0 := rfl

/-- The wrapped function is never entered earlier than
`previous_time + delta_time + small_delta_time`: the sleep is exactly the
shortfall when the elapsed time is short, and zero otherwise. -/
lemma le_add_sleepTime (s : LimitState) (now p : ℚ)
    (hp : s.previous_time = some p) :
    p + (s.delta_time + s.small_delta_time) ≤ now + sleepTime s now := by
  cases s with
  | mk pt dt st =>
      simp only [LimitState.previous_time] at hp
      subst hp
      show p + (dt + st) ≤ now + max 0 (dt + st - (now - p))
      rcases le_total (dt + st - (now - p)) 0 with h | h
      · rw [max_eq_left h]
        linarith
      · rw [max_eq_right h]
        linarith

/-- Weakening the head of a separation chain. -/
lemma chain_of_le {D a b : ℚ} (hba : b ≤ a) {l : List ℚ}
    (h : List.Chain (fun x y => x + D ≤ y) a l) :
    List.Chain (fun x y => x + D ≤ y) b l := by
  cases l with
  | nil => exact List.Chain.nil
  | cons c t =>
      rcases List.chain_cons.mp h with ⟨h1, h2⟩
      exact List.chain_cons.mpr ⟨by linarith, h2⟩

/-- Unfolding equation: no calls leave no function-entry times. -/
lemma runCalls_fcalls_nil (s : LimitState) (now : ℚ) :
    (runCalls s now []).fcalls = [] := rfl

/-- Unfolding equation: no calls leave the clock where it was. -/
lemma runCalls_endTime_nil (s : LimitState) (now : ℚ) :
    (runCalls s now []).endTime = now := rfl

/-- Unfolding equation for one call followed by the rest: the call is issued
at `now + d`, sleeps `sleepTime`, runs for `w`, and the recorded timestamp
(and the clock handed to the rest) is the finish time. -/
lemma runCalls_fcalls_cons (s : LimitState) (now d w : ℚ) (rest : List (ℚ × ℚ)) :
    (runCalls s now ((d, w) :: rest)).fcalls =
      (now + d + sleepTime s (now + d)) ::
        (runCalls { s with previous_time := some (now + d + sleepTime s (now + d) + w) }
          (now + d + sleepTime s (now + d) + w) rest).fcalls := rfl

/-- Unfolding equation for the final clock of one call followed by the rest. -/
lemma runCalls_endTime_cons (s : LimitState) (now d w : ℚ) (rest : List (ℚ × ℚ)) :
    (runCalls s now ((d, w) :: rest)).endTime =
      (runCalls { s with previous_time := some (now + d + sleepTime s (now + d) + w) }
        (now + d + sleepTime s (now + d) + w) rest).endTime := rfl

/-- From a state holding a recorded timestamp `p`, every function-entry time
is at least `delta_time + small_delta_time` after the previous recorded
timestamp, so the entry times form a separation chain rooted at `p`. -/
lemma runCalls_chain (D : ℚ) (l : List (ℚ × ℚ)) (s : LimitState) (now p : ℚ)
    (hp : s.previous_time = some p)
    (hD : s.delta_time + s.small_delta_time = D)
    (hw : ∀ x ∈ l, 0 ≤ x.2) :
    List.Chain (fun a b => a + D ≤ b) p (runCalls s now l).fcalls := by
  induction l generalizing s now p with
  | nil =>
      rw [runCalls_fcalls_nil]
      exact List.Chain.nil
  | cons hd rest ih =>
      obtain ⟨d, w⟩ := hd
      rw [runCalls_fcalls_cons]
      have hw0 : 0 ≤ w := (hw (d, w) (List.mem_cons_self _ _))
      refine List.chain_cons.mpr ⟨?_, ?_⟩
      · have h1 := le_add_sleepTime s (now + d) p hp
        rw [hD] at h1
        exact h1
      · have ihh := ih
          { s with previous_time := some (now + d + sleepTime s (now + d) + w) }
          (now + d + sleepTime s (now + d) + w)
          (now + d + sleepTime s (now + d) + w) rfl hD
          (fun x hx => hw x (List.mem_cons_of_mem _ hx))
        exact chain_of_le (by linarith) ihh

/-- From a state holding a recorded timestamp `p ≤ now`, running `n` further
calls pushes the clock to at least `p + n * (delta_time + small_delta_time)`. -/
lemma runCalls_endTime_ge (D : ℚ) (l : List (ℚ × ℚ)) (s : LimitState) (now p : ℚ)
    (hp : s.previous_time = some p)
    (hD : s.delta_time + s.small_delta_time = D)
    (hnow : p ≤ now)
    (hw : ∀ x ∈ l, 0 ≤ x.2) :
    p + (l.length : ℚ) * D ≤ (runCalls s now l).endTime := by
  induction l generalizing s now p with
  | nil =>
      rw [runCalls_endTime_nil]
      simpa using hnow
  | cons hd rest ih =>
      obtain ⟨d, w⟩ := hd
      rw [runCalls_endTime_cons]
      have hw0 : 0 ≤ w := (hw (d, w) (List.mem_cons_self _ _))
      have h1 := le_add_sleepTime s (now + d) p hp
      rw [hD] at h1
      have ihh := ih
        { s with previous_time := some (now + d + sleepTime s (now + d) + w) }
        (now + d + sleepTime s (now + d) + w)
        (now + d + sleepTime s (now + d) + w) rfl hD le_rfl
        (fun x hx => hw x (List.mem_cons_of_mem _ hx))
      simp only [List.length_cons]
      push_cast
      linarith

/-- C4: on its first invocation a wrapper built on a fresh `limit_calls`
state sleeps zero and enters the wrapped function at the invocation time;
the decorator's epsilon is fixed at `0.01` and the default interval is
`0.35`.  On a subsequent invocation with recorded timestamp `prev`, when
`elapsed = now - prev` is below `delta + 0.01` the thread blocks for exactly
`delta + 0.01 - elapsed`, and otherwise sleeps zero and enters the function
immediately.  The new timestamp is recorded as the time after the wrapped
function returns (`fcall_time + work`), not before the call. -/
theorem c4_step_behavior (delta prev now work : ℚ) :
    (sleepTime (limit_calls_init delta) now = 0 ∧
      (callWrap (limit_calls_init delta) now work
          (Except.ok () : Except Unit Unit)).fcall_time = now ∧
      (limit_calls_init default_delta_time).delta_time = 35/100 ∧
      (limit_calls_init delta).small_delta_time = 1/100) ∧
    ((now - prev < delta + 1/100 →
        sleepTime (LimitState.mk (some prev) delta (1/100)) now =
          delta + 1/100 - (now - prev)) ∧
      (delta + 1/100 ≤ now - prev →
        sleepTime (LimitState.mk (some prev) delta (1/100)) now = 0 ∧
        (callWrap (LimitState.mk (some prev) delta (1/100)) now work
            (Except.ok () : Except Unit Unit)).fcall_time = now)) ∧
    (∀ s : LimitState,
      (callWrap s now work (Except.ok () : Except Unit Unit)).state.previous_time =
        some ((callWrap s now work
          (Except.ok () : Except Unit Unit)).fcall_time + work)) := by
  refine ⟨⟨rfl, ?_, rfl, rfl⟩, ⟨?_, ?_⟩, fun s => rfl⟩
  · show now + sleepTime (limit_calls_init delta) now = now
    rw [sleepTime_init, add_zero]
  · intro h
    show max 0 (delta + 1/100 - (now - prev)) = delta + 1/100 - (now - prev)
    exact max_eq_right (by linarith)
  · intro h
    have hs : sleepTime (LimitState.mk (some prev) delta (1/100)) now = 0 := by
      show max 0 (delta + 1/100 - (now - prev)) = 0
      exact max_eq_left (by linarith)
    refine ⟨hs, ?_⟩
    show now + sleepTime (LimitState.mk (some prev) delta (1/100)) now = now
    rw [hs, add_zero]

/-- Witness for C4's blocking case: `delta = 0.35`, `prev = 0`, `now = 0.2`,
so the sleep is exactly `0.36 - 0.2 = 0.16`. -/
theorem c4_witness :
    sleepTime (LimitState.mk (some 0) (35/100) (1/100)) (1/5) =
      35/100 + 1/100 - (1/5 - 0) :=
  (c4_step_behavior (35/100) 0 (1/5) 0).2.1.1 (by norm_num)

/-- C10: when the wrapped function raises, the whole decorator state — in
particular `previous_time` — is left unchanged, the exception propagates,
and any later sleep computation is the one computed from the timestamp of
the last successful call. -/
theorem c10_exception_leaves_state {ε α : Type} (s : LimitState) (now work : ℚ)
    (e : ε) :
    (callWrap s now work (Except.error e : Except ε α)).state = s ∧
    (callWrap s now work (Except.error e : Except ε α)).value = Except.error e ∧
    ∀ t : ℚ,
      sleepTime (callWrap s now work (Except.error e : Except ε α)).state t =
        sleepTime s t :=
  ⟨rfl, rfl, fun _ => rfl⟩

/-- Witness for C10 at a concrete failing call on a fresh default limiter. -/
theorem c10_witness :
    (callWrap (limit_calls_init (35/100)) 1 0
        (Except.error () : Except Unit Unit)).state = limit_calls_init (35/100) :=
  (c10_exception_leaves_state (limit_calls_init (35/100)) 1 0 ()).1

/-- C1: through one `limit_calls` instance, any two successive wrapped-call
entry times are separated by at least `delta_time + small_delta_time`, and
for `N` sequential calls the wall clock at the end is at least
`(N - 1) * (delta_time + small_delta_time)` past the moment the caller
started, however fast the caller re-invokes (`d = 0` is back-to-back) and
however small the intrinsic work `w` is. -/
theorem c1_min_interval_separation (delta now : ℚ) (l : List (ℚ × ℚ))
    (hl : ∀ x ∈ l, 0 ≤ x.1 ∧ 0 ≤ x.2) :
    List.Chain' (fun a b => a + (delta + 1/100) ≤ b)
      (runCalls (limit_calls_init delta) now l).fcalls ∧
    now + ((l.length - 1 : ℕ) : ℚ) * (delta + 1/100) ≤
      (runCalls (limit_calls_init delta) now l).endTime := by
  cases l with
  | nil =>
      constructor
      · exact trivial
      · rw [runCalls_endTime_nil]
        norm_num
  | cons hd rest =>
      obtain ⟨d, w⟩ := hd
      have hd0 : 0 ≤ d := (hl (d, w) (List.mem_cons_self _ _)).1
      have hw0 : 0 ≤ w := (hl (d, w) (List.mem_cons_self _ _)).2
      have hrest : ∀ x ∈ rest, 0 ≤ x.2 :=
        fun x hx => (hl x (List.mem_cons_of_mem _ hx)).2
      constructor
      · rw [runCalls_fcalls_cons]
        have hch := runCalls_chain (delta + 1/100) rest
          { limit_calls_init delta with
              previous_time := some (now + d + sleepTime (limit_calls_init delta) (now + d) + w) }
          (now + d + sleepTime (limit_calls_init delta) (now + d) + w)
          (now + d + sleepTime (limit_calls_init delta) (now + d) + w) rfl rfl hrest
        exact chain_of_le (by linarith) hch
      · rw [runCalls_endTime_cons]
        have hend := runCalls_endTime_ge (delta + 1/100) rest
          { limit_calls_init delta with
              previous_time := some (now + d + sleepTime (limit_calls_init delta) (now + d) + w) }
          (now + d + sleepTime (limit_calls_init delta) (now + d) + w)
          (now + d + sleepTime (limit_calls_init delta) (now + d) + w) rfl rfl le_rfl hrest
        rw [sleepTime_init] at hend
        simp only [List.length_cons, Nat.add_sub_cancel, sleepTime_init]
        linarith

/-- Witness for C1 at `delta = 0.35` with two back-to-back zero-work calls
from a fresh limiter: entry times are separated by at least `0.36` and the
final clock is at least `(2 - 1) * 0.36`. -/
theorem c1_witness :
    (∀ x ∈ ([(0, 0), (0, 0)] : List (ℚ × ℚ)), 0 ≤ x.1 ∧ 0 ≤ x.2) ∧
    (List.Chain' (fun a b => a + (35/100 + 1/100) ≤ b)
        (runCalls (limit_calls_init (35/100)) 0 [(0, 0), (0, 0)]).fcalls ∧
      (0 : ℚ) + ((([(0, 0), (0, 0)] : List (ℚ × ℚ)).length - 1 : ℕ) : ℚ) *
          (35/100 + 1/100) ≤
        (runCalls (limit_calls_init (35/100)) 0 [(0, 0), (0, 0)]).endTime) := by
  have h : ∀ x ∈ ([(0, 0), (0, 0)] : List (ℚ × ℚ)), 0 ≤ x.1 ∧ 0 ≤ x.2 := by
    intro x hx
    fin_cases hx <;> exact ⟨le_refl 0, le_refl 0⟩
  exact ⟨h, c1_min_interval_separation (35/100) 0 [(0, 0), (0, 0)] h⟩

end NcbiExample
